import Mathlib

/-!
Verification development for the RuleBox rule-driven text classifier.

The core engine of this repository (the `RuleBox` type with constructors
`from_path` / `from_json` and evaluators `assign_labels` /
`assign_labels_vector`) is exposed to Python through a binding layer; the
repository sources available here contain the binding's tests and package
declaration, so the engine itself is modelled from the specification
document.  Every definition below whose doc comment starts with
"Modelled from the spec:" is such a model.
-/

namespace Rulebox

/-- Modelled from the spec: the abstract syntax of the compiled regex engine
(spec section 4.2: a Perl-compatible-ish engine with character classes,
alternation, quantifiers; backreferences and lookaround are not required).
The model covers the constructs exercised by the verified properties:
literal characters, the any-character dot, alternation, concatenation,
Kleene star and character classes.  Word-boundary and anchor assertions are
outside the model and are rejected by the pattern compiler. -/
inductive Regex where
  | emptyset : Regex
  | eps : Regex
  | char (c : Char) : Regex
  | dot : Regex
  | cls (neg : Bool) (items : List (Char × Char)) : Regex
  | alt (r₁ r₂ : Regex) : Regex
  | cat (r₁ r₂ : Regex) : Regex
  | star (r : Regex) : Regex
deriving DecidableEq

/-- Whether a regex accepts the empty string (Brzozowski nullability). -/
def nullable : Regex → Bool
  | .emptyset => false
  | .eps => true
  | .char _ => false
  | .dot => false
  | .cls _ _ => false
  | .alt a b => nullable a || nullable b
  | .cat a b => nullable a && nullable b
  | .star _ => true

/-- Character comparison; with `ci` set it is case-insensitive, which models
the `i` flag being delegated to the regex engine (spec section 4.3). -/
def charEq (ci : Bool) (a b : Char) : Bool :=
  if ci then a.toLower == b.toLower else a == b

/-- Membership of a character in one character-class item (a range; a
singleton is the range from a character to itself). -/
def itemMatches (ci : Bool) : Char × Char → Char → Bool
  | (lo, hi), c =>
    (decide (lo ≤ c) && decide (c ≤ hi)) ||
      (ci && decide (lo ≤ c.toLower) && decide (c.toLower ≤ hi)) ||
      (ci && decide (lo ≤ c.toUpper) && decide (c.toUpper ≤ hi))

/-- Brzozowski derivative of a regex with respect to one input character. -/
def deriv (ci : Bool) : Regex → Char → Regex
  | .emptyset, _ => .emptyset
  | .eps, _ => .emptyset
  | .char d, c => if charEq ci d c then .eps else .emptyset
  | .dot, c => if c == '\n' then .emptyset else .eps
  | .cls neg items, c =>
    if (items.any (fun it => itemMatches ci it c)) != neg then .eps else .emptyset
  | .alt a b, c => .alt (deriv ci a c) (deriv ci b c)
  | .cat a b, c =>
    if nullable a then .alt (.cat (deriv ci a c) b) (deriv ci b c)
    else .cat (deriv ci a c) b
  | .star a, c => .cat (deriv ci a c) (.star a)

/-- Anchored full match: the regex accepts exactly the given character list. -/
def rmatch (ci : Bool) : Regex → List Char → Bool
  | r, [] => nullable r
  | r, c :: cs => rmatch ci (deriv ci r c) cs

/-- Whether some prefix of the character list (including the empty prefix)
is accepted by the regex. -/
def matchHere (ci : Bool) : Regex → List Char → Bool
  | r, [] => nullable r
  | r, c :: cs => nullable r || matchHere ci (deriv ci r c) cs

/-- Modelled from the spec: unanchored search, true when the compiled
pattern finds at least one match anywhere in the input
(spec section 4.3: "the compiled pattern finds at least one match anywhere
in `input` (unanchored search)"). -/
def searchFrom (ci : Bool) : Regex → List Char → Bool
  | r, [] => nullable r
  | r, c :: cs => matchHere ci r (c :: cs) || searchFrom ci r cs

/-- Modelled from the spec: a compiled pattern, i.e. a compiled regex
together with the engine options derived from its flag tokens.  Of the
recognized flags only `i` (case-insensitivity) affects the matching model;
`m`, `s`, `x`, `U` are validated at construction but their effect on exotic
patterns is not exercised by the verified properties. -/
structure CompiledPattern where
  re : Regex
  ci : Bool
deriving DecidableEq

/-- Unanchored match of one compiled pattern against an input. -/
def isMatch (p : CompiledPattern) (s : List Char) : Bool :=
  searchFrom p.ci p.re s

/-- Modelled from the spec: a rule predicate, three optional clause lists
(spec section 3).  An absent clause is `none`; a present clause holds the
ordered list of compiled patterns. -/
structure Predicate where
  or_patterns : Option (List CompiledPattern)
  and_patterns : Option (List CompiledPattern)
  not_patterns : Option (List CompiledPattern)
deriving DecidableEq

/-- Modelled from the spec: a rule is a pair of a label and a predicate. -/
structure Rule where
  label : String
  rule : Predicate
deriving DecidableEq

/-- Modelled from the spec (section 4.3, step 1): the `and_patterns` clause
is satisfied when every pattern matches; absent or empty clauses are
vacuously true. -/
def andSat (c : Option (List CompiledPattern)) (s : List Char) : Bool :=
  match c with
  | none => true
  | some ps => ps.all (fun p => isMatch p s)

/-- Modelled from the spec (section 4.3, step 2): the `not_patterns` clause
is satisfied when no pattern matches; absent or empty clauses are
vacuously true. -/
def notSat (c : Option (List CompiledPattern)) (s : List Char) : Bool :=
  match c with
  | none => true
  | some ps => ps.all (fun p => !(isMatch p s))

/-- Modelled from the spec (section 4.3, step 3): the `or_patterns` clause
is satisfied when at least one pattern matches, except that an absent or
empty clause is vacuously true. -/
def orSat (c : Option (List CompiledPattern)) (s : List Char) : Bool :=
  match c with
  | none => true
  | some [] => true
  | some ps => ps.any (fun p => isMatch p s)

/-- Modelled from the spec (section 4.3): a rule fires when all three
clauses are satisfied, evaluated in the early-rejection order
and-then-not-then-or. -/
def ruleFires (r : Rule) (s : List Char) : Bool :=
  andSat r.rule.and_patterns s && notSat r.rule.not_patterns s &&
    orSat r.rule.or_patterns s

/-- Modelled from the spec: the compiled, immutable rule catalog
(spec section 3, RuleCatalog). -/
structure RuleBox where
  rules : List Rule
deriving DecidableEq

/-- Modelled from the spec (section 4.3): evaluate the catalog one rule at
a time in declaration order, appending the label of every rule that fires. -/
def assignLabelsAux (s : List Char) : List Rule → List String
  | [] => []
  | r :: rest =>
    if ruleFires r s then r.label :: assignLabelsAux s rest
    else assignLabelsAux s rest

/-- Modelled from the spec: the public single-input evaluator
`assign_labels(text)` returning the ordered label list. -/
def RuleBox.assign_labels (rb : RuleBox) (text : String) : List String :=
  assignLabelsAux text.toList rb.rules

/-- Modelled from the spec (section 4.4): the small-batch cutoff under which
the batch driver falls back to serial evaluation ("a handful of inputs"). -/
def smallBatchCutoff : Nat := 4

/-- Modelled from the spec (section 5): the chunk size of the
index-partitioned parallel map used by the batch driver. -/
def batchChunkSize : Nat := 16

/-- Split a list into consecutive chunks of `n + 1` elements (the last chunk
may be shorter); used to model index-partitioned parallel dispatch. -/
def chunkList (n : Nat) (xs : List α) : List (List α) :=
  match xs with
  | [] => []
  | x :: rest => (x :: rest.take n) :: chunkList n (rest.drop n)
termination_by xs.length
decreasing_by simp [List.length_drop]; omega

/-- Modelled from the spec (sections 4.4 and 5): the public batch evaluator
`assign_labels_vector(texts)`.  Small batches are evaluated serially; larger
batches are split into index partitions, each partition is mapped
independently (the model of per-worker evaluation), and the per-partition
results are concatenated back in input order. -/
def RuleBox.assign_labels_vector (rb : RuleBox) (texts : List String) :
    List (List String) :=
  if texts.length ≤ smallBatchCutoff then texts.map rb.assign_labels
  else
    ((chunkList batchChunkSize texts).map
      (fun chunk => chunk.map rb.assign_labels)).flatten

/-- Fold a postfix quantifier chain onto an already-parsed atom: `*` is
Kleene star, `+` is one-or-more, `?` is optional. -/
def applyPostfix (r : Regex) : List Char → Regex × List Char
  | '*' :: rest => applyPostfix (.star r) rest
  | '+' :: rest => applyPostfix (.cat r (.star r)) rest
  | '?' :: rest => applyPostfix (.alt r .eps) rest
  | rest => (r, rest)

/-- Translate one escaped character of a pattern into a regex.  Escaped
punctuation denotes the literal character; `\d`, `\w`, `\s` are the usual
character classes; assertions such as `\b` are outside the model. -/
def parseEscape (c : Char) : Except String Regex :=
  match c with
  | 'n' => .ok (.char '\n')
  | 't' => .ok (.char '\t')
  | 'r' => .ok (.char '\r')
  | 'd' => .ok (.cls false [('0', '9')])
  | 'w' => .ok (.cls false [('a', 'z'), ('A', 'Z'), ('0', '9'), ('_', '_')])
  | 's' => .ok (.cls false [(' ', ' '), ('\t', '\t'), ('\n', '\n'), ('\r', '\r')])
  | 'b' => .error "assertion escapes are not modelled"
  | 'B' => .error "assertion escapes are not modelled"
  | 'A' => .error "assertion escapes are not modelled"
  | 'z' => .error "assertion escapes are not modelled"
  | 'D' => .error "negated class escapes are not modelled"
  | 'W' => .error "negated class escapes are not modelled"
  | 'S' => .error "negated class escapes are not modelled"
  | other => .ok (.char other)

/-- Parse the body of a character class after the optional leading caret,
producing the list of range items; a singleton is a range from a character
to itself.  An input that ends before the closing bracket is the
"unclosed character class" error. -/
def parseClsItems (s : List Char) :
    Except String (List (Char × Char) × List Char) :=
  match s with
  | [] => .error "unclosed character class"
  | ']' :: rest => .ok ([], rest)
  | c :: '-' :: ']' :: rest => .ok ([(c, c), ('-', '-')], rest)
  | c :: '-' :: d :: rest => do
    let (items, rest2) ← parseClsItems rest
    .ok ((c, d) :: items, rest2)
  | c :: rest => do
    let (items, rest2) ← parseClsItems rest
    .ok ((c, c) :: items, rest2)

mutual

/-- Parse an alternation (the lowest-precedence pattern level). -/
def parseAlt : Nat → List Char → Except String (Regex × List Char)
  | 0, _ => .error "pattern too deeply nested"
  | fuel + 1, s => do
    let (r, rest) ← parseSeq fuel s
    match rest with
    | '|' :: rest2 => do
      let (r2, rest3) ← parseAlt fuel rest2
      .ok (.alt r r2, rest3)
    | _ => .ok (r, rest)

/-- Parse a concatenation of quantified atoms, stopping at an alternation
bar, a closing parenthesis, or the end of the pattern. -/
def parseSeq : Nat → List Char → Except String (Regex × List Char)
  | 0, _ => .error "pattern too deeply nested"
  | fuel + 1, s =>
    match s with
    | [] => .ok (.eps, [])
    | ')' :: t => .ok (.eps, ')' :: t)
    | '|' :: t => .ok (.eps, '|' :: t)
    | _ => do
      let (r, rest) ← parseRep fuel s
      let (r2, rest2) ← parseSeq fuel rest
      .ok (.cat r r2, rest2)

/-- Parse one atom together with its postfix quantifiers. -/
def parseRep : Nat → List Char → Except String (Regex × List Char)
  | 0, _ => .error "pattern too deeply nested"
  | fuel + 1, s => do
    let (r, rest) ← parseAtom fuel s
    .ok (applyPostfix r rest)

/-- Parse one atom: a group, a character class, the dot, an escape, or a
literal character. -/
def parseAtom : Nat → List Char → Except String (Regex × List Char)
  | 0, _ => .error "pattern too deeply nested"
  | fuel + 1, s =>
    match s with
    | [] => .error "expected an atom"
    | '(' :: rest => do
      let (r, rest2) ← parseAlt fuel rest
      match rest2 with
      | ')' :: rest3 => .ok (r, rest3)
      | _ => .error "unclosed group"
    | '[' :: '^' :: rest => do
      let (items, rest2) ← parseClsItems rest
      .ok (.cls true items, rest2)
    | '[' :: rest => do
      let (items, rest2) ← parseClsItems rest
      .ok (.cls false items, rest2)
    | '.' :: rest => .ok (.dot, rest)
    | '\\' :: [] => .error "pattern may not end with a backslash"
    | '\\' :: c :: rest => (parseEscape c).map (fun r => (r, rest))
    | '*' :: _ => .error "repetition operator missing expression"
    | '+' :: _ => .error "repetition operator missing expression"
    | '?' :: _ => .error "repetition operator missing expression"
    | '^' :: _ => .error "anchor assertions are not modelled"
    | '$' :: _ => .error "anchor assertions are not modelled"
    | c :: rest => .ok (.char c, rest)

end

/-- Modelled from the spec (section 4.2): compile one pattern source string
into the engine's regex representation, reporting a textual diagnostic on
invalid syntax (e.g. an unclosed character class for the pattern "["). -/
def parseRegexStr (pat : String) : Except String Regex := do
  let (r, rest) ← parseAlt (pat.length * 3 + 8) pat.toList
  match rest with
  | [] => .ok r
  | ')' :: _ => .error "unmatched closing parenthesis"
  | _ => .error "could not parse pattern"

/-- Modelled from the spec: the JSON value tree produced by the parser.
Numbers are kept as their raw token text (the rule schema never consumes
numbers, they can only trigger schema violations). -/
inductive JValue where
  | jnull : JValue
  | jbool (b : Bool) : JValue
  | jnum (raw : String) : JValue
  | jstr (s : String) : JValue
  | jarr (xs : List JValue) : JValue
  | jobj (fields : List (String × JValue)) : JValue

/-- JSON insignificant whitespace. -/
def isWs (c : Char) : Bool :=
  c == ' ' || c == '\n' || c == '\t' || c == '\r'

/-- Drop leading JSON whitespace. -/
def skipWs : List Char → List Char
  | [] => []
  | c :: cs => if isWs c then skipWs cs else c :: cs

/-- Parse the body of a JSON string literal after the opening quote,
handling the escape sequences the rule documents use. -/
def parseStrBody (acc : List Char) (s : List Char) :
    Except String (String × List Char) :=
  match s with
  | [] => .error "unterminated string"
  | '"' :: rest => .ok (String.mk acc.reverse, rest)
  | '\\' :: [] => .error "unterminated string"
  | '\\' :: c :: rest =>
    match c with
    | '"' => parseStrBody ('"' :: acc) rest
    | '\\' => parseStrBody ('\\' :: acc) rest
    | '/' => parseStrBody ('/' :: acc) rest
    | 'n' => parseStrBody ('\n' :: acc) rest
    | 't' => parseStrBody ('\t' :: acc) rest
    | 'r' => parseStrBody ('\r' :: acc) rest
    | _ => .error "unsupported escape sequence in string"
  | c :: rest => parseStrBody (c :: acc) rest

/-- Whether the second list starts with the first. -/
def startsWithKw : List Char → List Char → Bool
  | [], _ => true
  | _ :: _, [] => false
  | k :: ks, c :: cs => k == c && startsWithKw ks cs

/-- Characters that may occur in a JSON number token. -/
def isNumChar (c : Char) : Bool :=
  c.isDigit || c == '-' || c == '+' || c == '.' || c == 'e' || c == 'E'

mutual

/-- Modelled from the spec (section 4.1): recursive-descent JSON value
parser.  The diagnostic "expected value" is produced exactly where the
input does not begin a JSON value. -/
def parseValue : Nat → List Char → Except String (JValue × List Char)
  | 0, _ => .error "document too deeply nested"
  | fuel + 1, s =>
    match skipWs s with
    | [] => .error "expected value"
    | '"' :: rest => do
      let (str, rest2) ← parseStrBody [] rest
      .ok (.jstr str, rest2)
    | '[' :: rest =>
      match skipWs rest with
      | ']' :: rest2 => .ok (.jarr [], rest2)
      | rest2 => do
        let (xs, rest3) ← parseArrItems fuel rest2
        .ok (.jarr xs, rest3)
    | '\x7b' :: rest =>
      match skipWs rest with
      | '\x7d' :: rest2 => .ok (.jobj [], rest2)
      | rest2 => do
        let (fs, rest3) ← parseObjItems fuel rest2
        .ok (.jobj fs, rest3)
    | c :: rest =>
      if startsWithKw ('t' :: 'r' :: 'u' :: 'e' :: []) (c :: rest) then
        .ok (.jbool true, (c :: rest).drop 4)
      else if startsWithKw ('f' :: 'a' :: 'l' :: 's' :: 'e' :: []) (c :: rest) then
        .ok (.jbool false, (c :: rest).drop 5)
      else if startsWithKw ('n' :: 'u' :: 'l' :: 'l' :: []) (c :: rest) then
        .ok (.jnull, (c :: rest).drop 4)
      else if c.isDigit || c == '-' then
        let tok := (c :: rest).takeWhile isNumChar
        if tok.any Char.isDigit then
          .ok (.jnum (String.mk tok), (c :: rest).dropWhile isNumChar)
        else .error "invalid number"
      else .error "expected value"

/-- Parse the comma-separated items of a non-empty JSON array up to the
closing bracket. -/
def parseArrItems : Nat → List Char → Except String (List JValue × List Char)
  | 0, _ => .error "document too deeply nested"
  | fuel + 1, s => do
    let (v, rest) ← parseValue fuel s
    match skipWs rest with
    | ',' :: rest2 => do
      let (vs, rest3) ← parseArrItems fuel rest2
      .ok (v :: vs, rest3)
    | ']' :: rest2 => .ok ([v], rest2)
    | _ => .error "expected comma or closing bracket in array"

/-- Parse the comma-separated entries of a non-empty JSON object up to the
closing brace. -/
def parseObjItems : Nat → List Char →
    Except String (List (String × JValue) × List Char)
  | 0, _ => .error "document too deeply nested"
  | fuel + 1, s =>
    match skipWs s with
    | '"' :: rest => do
      let (k, rest2) ← parseStrBody [] rest
      match skipWs rest2 with
      | ':' :: rest3 => do
        let (v, rest4) ← parseValue fuel rest3
        match skipWs rest4 with
        | ',' :: rest5 => do
          let (fs, rest6) ← parseObjItems fuel rest5
          .ok ((k, v) :: fs, rest6)
        | '\x7d' :: rest5 => .ok ([(k, v)], rest5)
        | _ => .error "expected comma or closing brace in object"
      | _ => .error "expected colon after object key"
    | _ => .error "expected string key in object"

end

/-- Modelled from the spec: parse a whole JSON document, rejecting trailing
non-whitespace characters. -/
def parseJson (text : String) : Except String JValue := do
  let (v, rest) ← parseValue (text.length * 2 + 8) text.toList
  match skipWs rest with
  | [] => .ok v
  | _ => .error "trailing characters"

/-- Modelled from the spec (section 7): the structured construction-time
error taxonomy.  A regex-compilation failure carries the offending pattern
text, the rule index, the clause kind, the position within the clause list
and the engine's diagnostic. -/
inductive LoadError where
  | ioFailure (msg : String) : LoadError
  | jsonSyntaxError (msg : String) : LoadError
  | schemaViolation (msg : String) : LoadError
  | unknownFlag (flag : String) : LoadError
  | regexSyntaxError (pattern : String) (ruleIndex : Nat) (clauseKind : String)
      (patternIndex : Nat) (msg : String) : LoadError
deriving DecidableEq

/-- Modelled from the spec (section 3): a regex source string plus an
optional list of flag tokens, defaulting to the empty list. -/
structure PatternSpec where
  pattern : String
  flags : List String
deriving DecidableEq

/-- Modelled from the spec: an uncompiled rule predicate as deserialized
from JSON. -/
structure RawPredicate where
  or_patterns : Option (List PatternSpec)
  and_patterns : Option (List PatternSpec)
  not_patterns : Option (List PatternSpec)
deriving DecidableEq

/-- Modelled from the spec: an uncompiled rule as deserialized from JSON. -/
structure RawRule where
  label : String
  rule : RawPredicate
deriving DecidableEq

/-- Look up a key among the fields of a JSON object (first occurrence). -/
def lookupField (fields : List (String × JValue)) (k : String) : Option JValue :=
  match fields with
  | [] => none
  | (k2, v) :: rest => if k2 = k then some v else lookupField rest k

/-- Modelled from the spec (section 4.1): deserialize one pattern spec
object; `pattern` is a required string, `flags` defaults to the empty list
and must otherwise be an array of strings. -/
def asPatternSpec (j : JValue) : Except LoadError PatternSpec :=
  match j with
  | .jobj fields => do
    let pat ←
      match lookupField fields "pattern" with
      | some (.jstr s) => Except.ok s
      | some _ => Except.error (.schemaViolation "pattern must be a string")
      | none => Except.error (.schemaViolation "missing required key pattern")
    let flags ←
      match lookupField fields "flags" with
      | none => Except.ok []
      | some (.jarr xs) =>
        xs.mapM fun x =>
          match x with
          | .jstr f => Except.ok f
          | _ => Except.error (LoadError.schemaViolation "flag must be a string")
      | some _ => Except.error (.schemaViolation "flags must be an array")
    .ok ⟨pat, flags⟩
  | _ => .error (.schemaViolation "pattern spec must be an object")

/-- Modelled from the spec (section 4.1): deserialize one optional clause;
absent keys give `none`, present keys must be arrays of pattern specs. -/
def asClause (j : Option JValue) :
    Except LoadError (Option (List PatternSpec)) :=
  match j with
  | none => .ok none
  | some (.jarr xs) => do
    let ps ← xs.mapM asPatternSpec
    .ok (some ps)
  | some _ => .error (.schemaViolation "clause must be an array of pattern specs")

/-- Modelled from the spec (section 4.1): deserialize one rule object;
`label` must be a string and `rule` an object; unknown keys are ignored. -/
def asRawRule (j : JValue) : Except LoadError RawRule :=
  match j with
  | .jobj fields => do
    let lab ←
      match lookupField fields "label" with
      | some (.jstr s) => Except.ok s
      | some _ => Except.error (.schemaViolation "label must be a string")
      | none => Except.error (.schemaViolation "missing required key label")
    let ruleFields ←
      match lookupField fields "rule" with
      | some (.jobj fs) => Except.ok fs
      | some _ => Except.error (.schemaViolation "rule must be an object")
      | none => Except.error (.schemaViolation "missing required key rule")
    let ors ← asClause (lookupField ruleFields "or_patterns")
    let ands ← asClause (lookupField ruleFields "and_patterns")
    let nots ← asClause (lookupField ruleFields "not_patterns")
    .ok ⟨lab, ⟨ors, ands, nots⟩⟩
  | _ => .error (.schemaViolation "rule entry must be an object")

/-- Modelled from the spec (section 4.1): the top level of a rule document
is an array of rule objects; deserialization is fail-fast left to right. -/
def asCatalogDoc (j : JValue) : Except LoadError (List RawRule) :=
  match j with
  | .jarr xs => xs.mapM asRawRule
  | _ => .error (.schemaViolation "top level must be an array of rules")

/-- Modelled from the spec (section 3): the closed set of recognized flag
tokens. -/
def recognizedFlags : List String := ["i", "m", "s", "x", "U"]

/-- Modelled from the spec (section 4.2): validate the flag tokens of one
pattern, failing fast on the first unknown flag, and record whether the
case-insensitivity option `i` is present. -/
def compileFlags : List String → Except LoadError Bool
  | [] => .ok false
  | f :: rest =>
    if recognizedFlags.contains f then do
      let ci ← compileFlags rest
      .ok (f == "i" || ci)
    else .error (.unknownFlag f)

/-- Modelled from the spec (section 4.2): compile the patterns of one
clause in order, failing fast with the position of the first failure. -/
def compilePatterns (ruleIdx : Nat) (kind : String) :
    Nat → List PatternSpec → Except LoadError (List CompiledPattern)
  | _, [] => .ok []
  | patIdx, ps :: rest => do
    let ci ← compileFlags ps.flags
    match parseRegexStr ps.pattern with
    | .error m =>
      .error (.regexSyntaxError ps.pattern ruleIdx kind patIdx m)
    | .ok r => do
      let more ← compilePatterns ruleIdx kind (patIdx + 1) rest
      .ok (⟨r, ci⟩ :: more)

/-- Compile one optional clause. -/
def compileClause (ruleIdx : Nat) (kind : String) :
    Option (List PatternSpec) → Except LoadError (Option (List CompiledPattern))
  | none => .ok none
  | some ps => do
    let cps ← compilePatterns ruleIdx kind 0 ps
    .ok (some cps)

/-- Compile one rule, clause by clause in schema order. -/
def compileRule (ruleIdx : Nat) (r : RawRule) : Except LoadError Rule := do
  let ors ← compileClause ruleIdx "or_patterns" r.rule.or_patterns
  let ands ← compileClause ruleIdx "and_patterns" r.rule.and_patterns
  let nots ← compileClause ruleIdx "not_patterns" r.rule.not_patterns
  .ok ⟨r.label, ⟨ors, ands, nots⟩⟩

/-- Modelled from the spec (section 4.2): compile every rule of the parsed
catalog in declaration order, aborting on the first error. -/
def compileRules : Nat → List RawRule → Except LoadError (List Rule)
  | _, [] => .ok []
  | idx, r :: rest => do
    let cr ← compileRule idx r
    let more ← compileRules (idx + 1) rest
    .ok (cr :: more)

/-- Modelled from the spec (section 6): the constructor `from_json(text)`,
taking an in-memory JSON string through parsing, schema validation and
regex compilation to a compiled catalog, or to the first structured error. -/
def RuleBox.from_json (text : String) : Except LoadError RuleBox :=
  match parseJson text with
  | .error m => .error (.jsonSyntaxError m)
  | .ok j => do
    let raw ← asCatalogDoc j
    let rules ← compileRules 0 raw
    .ok ⟨rules⟩

/-- Modelled from the spec (section 6): the constructor `from_path(path)`;
the filesystem is modelled as a partial map from path names to file
contents, an unreadable path being the `IoFailure` case. -/
def RuleBox.from_path (fs : String → Option String) (path : String) :
    Except LoadError RuleBox :=
  match fs path with
  | none => .error (.ioFailure ("Failed to load RuleBox: could not read " ++ path))
  | some text => RuleBox.from_json text

/-- Modelled from the binding's tests: a Python value passed as the `path`
argument of `from_path`; either a plain string, a Path-like object carrying
its filesystem representation, or a value of some other type. -/
inductive PyValue where
  | pyStr (s : String) : PyValue
  | pyPath (fspath : String) : PyValue
  | pyInt (n : Int) : PyValue
  | pyNone : PyValue
deriving DecidableEq

/-- Errors surfaced to Python: a TypeError from argument coercion or a
structured construction error. -/
inductive PyError where
  | typeError (msg : String) : PyError
  | loadError (e : LoadError) : PyError
deriving DecidableEq

/-- Modelled from the binding's tests: coerce the Python-level argument to
a path string; strings and Path-like objects are accepted, anything else
raises a TypeError before any filesystem access. -/
def coercePathArg : PyValue → Except PyError String
  | .pyStr s => .ok s
  | .pyPath p => .ok p
  | .pyInt _ => .error (.typeError "path must be a string or Path-like object")
  | .pyNone => .error (.typeError "path must be a string or Path-like object")

/-- Modelled from the binding's tests: the Python-facing `from_path`,
coercing its argument first and only then touching the filesystem. -/
def from_path_py (fs : String → Option String) (arg : PyValue) :
    Except PyError RuleBox :=
  match coercePathArg arg with
  | .error e => .error e
  | .ok p => (RuleBox.from_path fs p).mapError .loadError

/-- Specification-side predicate, following the claim wording: whether a
clause list is present, i.e. neither absent nor empty (spec section 3:
"A clause list that is absent or empty is vacuously true and does not
participate in the decision"). -/
def clausePresent (c : Option (List CompiledPattern)) : Bool :=
  match c with
  | none => false
  | some ps => !ps.isEmpty

/-- Specification-side predicate, following the claim wording: every
present clause of the predicate is satisfied — the conjunction over all
patterns for `and_patterns`, no match for `not_patterns`, at least one
match for `or_patterns`, each clause counting only when present. -/
def presentClausesSat (p : Predicate) (s : List Char) : Bool :=
  (!clausePresent p.and_patterns ||
     (p.and_patterns.getD []).all (fun q => isMatch q s)) &&
  (!clausePresent p.not_patterns ||
     (p.not_patterns.getD []).all (fun q => !(isMatch q s))) &&
  (!clausePresent p.or_patterns ||
     (p.or_patterns.getD []).any (fun q => isMatch q s))

/-- Whether the first list occurs as a run at the start of the second. -/
def sublistAt : List Char → List Char → Bool
  | [], _ => true
  | _ :: _, [] => false
  | a :: as, b :: bs => a == b && sublistAt as bs

/-- Whether the first list occurs contiguously anywhere in the second. -/
def containsSub (needle : List Char) : List Char → Bool
  | [] => sublistAt needle []
  | b :: t => sublistAt needle (b :: t) || containsSub needle t

/-- The two-rule catalog of spec section 8, scenario 3: "urgent" declared
before "polite". -/
def urgentPoliteDoc : String :=
  "[\x7b\"label\":\"urgent\",\"rule\":\x7b\"and_patterns\":[\x7b\"pattern\":\"urgent\",\"flags\":[\"i\"]\x7d,\x7b\"pattern\":\"asap|immediately|now\",\"flags\":[\"i\"]\x7d]\x7d\x7d,\x7b\"label\":\"polite\",\"rule\":\x7b\"or_patterns\":[\x7b\"pattern\":\"please\",\"flags\":[\"i\"]\x7d,\x7b\"pattern\":\"thanks\",\"flags\":[\"i\"]\x7d]\x7d\x7d]"

/-- A document whose only pattern is the invalid regex "[" (spec section 8,
scenario 6). -/
def badRegexDoc : String :=
  "[\x7b\"label\":\"x\",\"rule\":\x7b\"or_patterns\":[\x7b\"pattern\":\"[\"\x7d]\x7d\x7d]"

/-- A document with an unknown flag in rule 0 and an invalid regex in
rule 1, to observe which error fail-fast construction reports. -/
def failFastDoc : String :=
  "[\x7b\"label\":\"a\",\"rule\":\x7b\"or_patterns\":[\x7b\"pattern\":\"x\",\"flags\":[\"z\"]\x7d]\x7d\x7d,\x7b\"label\":\"b\",\"rule\":\x7b\"or_patterns\":[\x7b\"pattern\":\"[\"\x7d]\x7d\x7d]"

/-- A document whose only rule has the single clause `or_patterns: ["a*"]`,
whose pattern matches the empty string. -/
def aStarDoc : String :=
  "[\x7b\"label\":\"e\",\"rule\":\x7b\"or_patterns\":[\x7b\"pattern\":\"a*\"\x7d]\x7d\x7d]"

/-- A compiled pattern matching the literal character a, for witnesses. -/
def cpA : CompiledPattern := ⟨.char 'a', false⟩

/-- A compiled pattern matching the literal character b, for witnesses. -/
def cpB : CompiledPattern := ⟨.char 'b', false⟩

/-- A one-rule catalog whose rule fires exactly on inputs containing a. -/
def rbA : RuleBox := ⟨[⟨"hasA", ⟨some [cpA], none, none⟩⟩]⟩

/-- An example filesystem holding one rule file, for witnesses. -/
def fsEx : String → Option String :=
  fun p => if p = "rules.json" then some "[]" else none

theorem assignLabelsAux_eq_filter_map (s : List Char) (rules : List Rule) :
    assignLabelsAux s rules =
      (rules.filter (fun r => ruleFires r s)).map Rule.label := by
  induction rules with
  | nil => rfl
  | cons r rest ih =>
    by_cases h : ruleFires r s <;>
      simp [assignLabelsAux, List.filter_cons, h, ih]

theorem chunkList_flatten (n : Nat) (xs : List α) :
    (chunkList n xs).flatten = xs := by
  have H : ∀ (k : Nat) (ys : List α), ys.length ≤ k →
      (chunkList n ys).flatten = ys := by
    intro k
    induction k with
    | zero =>
      intro ys hy
      have hnil : ys = [] := List.length_eq_zero.mp (Nat.le_zero.mp hy)
      subst hnil
      rw [chunkList]
      rfl
    | succ k ih =>
      intro ys hy
      match ys with
      | [] =>
        rw [chunkList]
        rfl
      | y :: rest =>
        rw [chunkList]
        have hr : (rest.drop n).length ≤ k := by
          simp only [List.length_drop]
          simp only [List.length_cons] at hy
          omega
        simp only [List.flatten_cons, ih (rest.drop n) hr, List.cons_append,
          List.take_append_drop]
  exact H xs.length xs le_rfl

theorem rmatch_cons (ci : Bool) (r : Regex) (c : Char) (cs : List Char) :
    rmatch ci r (c :: cs) = rmatch ci (deriv ci r c) cs := rfl

theorem matchHere_iff (ci : Bool) (r : Regex) (s : List Char) :
    matchHere ci r s = true ↔ ∃ u v, s = u ++ v ∧ rmatch ci r u = true := by
  induction s generalizing r with
  | nil =>
    constructor
    · intro h
      exact ⟨[], [], rfl, h⟩
    · rintro ⟨u, v, huv, hm⟩
      have hu : u = [] := by
        cases u with
        | nil => rfl
        | cons a as => simp at huv
      subst hu
      exact hm
  | cons c cs ih =>
    constructor
    · intro h
      rcases Bool.or_eq_true_iff.mp h with h1 | h1
      · exact ⟨[], c :: cs, rfl, h1⟩
      · obtain ⟨u, v, huv, hm⟩ := (ih (deriv ci r c)).mp h1
        exact ⟨c :: u, v, by simp [huv], hm⟩
    · rintro ⟨u, v, huv, hm⟩
      show (nullable r || matchHere ci (deriv ci r c) cs) = true
      cases u with
      | nil =>
        simp only [List.nil_append] at huv
        subst huv
        simp [rmatch] at hm
        simp [hm]
      | cons u0 us =>
        simp only [List.cons_append, List.cons.injEq] at huv
        obtain ⟨hc, hcs⟩ := huv
        subst hc
        have : matchHere ci (deriv ci r c) cs = true :=
          (ih (deriv ci r c)).mpr ⟨us, v, hcs, hm⟩
        simp [this]

theorem searchFrom_iff (ci : Bool) (r : Regex) (s : List Char) :
    searchFrom ci r s = true ↔
      ∃ u v w, s = u ++ v ++ w ∧ rmatch ci r v = true := by
  induction s with
  | nil =>
    constructor
    · intro h
      exact ⟨[], [], [], rfl, h⟩
    · rintro ⟨u, v, w, huvw, hm⟩
      have hu : u = [] ∧ v = [] := by
        cases u with
        | nil =>
          cases v with
          | nil => exact ⟨rfl, rfl⟩
          | cons a as => simp at huvw
        | cons a as => simp at huvw
      obtain ⟨h1, h2⟩ := hu
      subst h1; subst h2
      exact hm
  | cons c cs ih =>
    constructor
    · intro h
      rcases Bool.or_eq_true_iff.mp h with h1 | h1
      · obtain ⟨v, w, hvw, hm⟩ := (matchHere_iff ci r (c :: cs)).mp h1
        exact ⟨[], v, w, by simp [hvw], hm⟩
      · obtain ⟨u, v, w, h1', h2'⟩ := ih.mp h1
        exact ⟨c :: u, v, w, by simp [h1'], h2'⟩
    · rintro ⟨u, v, w, huvw, hm⟩
      show (matchHere ci r (c :: cs) || searchFrom ci r cs) = true
      cases u with
      | nil =>
        simp only [List.nil_append] at huvw
        have : matchHere ci r (c :: cs) = true :=
          (matchHere_iff ci r (c :: cs)).mpr ⟨v, w, huvw, hm⟩
        simp [this]
      | cons u0 us =>
        simp only [List.cons_append, List.cons.injEq] at huvw
        obtain ⟨hc, hcs⟩ := huvw
        have : searchFrom ci r cs = true := ih.mpr ⟨us, v, w, hcs, hm⟩
        simp [this]

theorem andSat_eq (c : Option (List CompiledPattern)) (s : List Char) :
    andSat c s = (!clausePresent c || (c.getD []).all (fun q => isMatch q s)) := by
  match c with
  | none => rfl
  | some [] => rfl
  | some (p :: ps) => simp [andSat, clausePresent]

theorem notSat_eq (c : Option (List CompiledPattern)) (s : List Char) :
    notSat c s =
      (!clausePresent c || (c.getD []).all (fun q => !(isMatch q s))) := by
  match c with
  | none => rfl
  | some [] => rfl
  | some (p :: ps) => simp [notSat, clausePresent]

theorem orSat_eq (c : Option (List CompiledPattern)) (s : List Char) :
    orSat c s = (!clausePresent c || (c.getD []).any (fun q => isMatch q s)) := by
  match c with
  | none => rfl
  | some [] => rfl
  | some (p :: ps) => simp [orSat, clausePresent]

theorem ruleFires_eq_presentClausesSat (r : Rule) (s : List Char) :
    ruleFires r s = presentClausesSat r.rule s := by
  simp only [ruleFires, presentClausesSat, andSat_eq, notSat_eq, orSat_eq]

/-- C1: for every sequence of input strings, `assign_labels_vector` returns
a sequence of the same length whose i-th element is `assign_labels` of the
i-th input — it equals the sequential map of `assign_labels` regardless of
the batch driver's internal partitioning — and it returns the empty list on
the empty batch. -/
theorem assign_labels_vector_is_sequential_map (rb : RuleBox) (xs : List String) :
    rb.assign_labels_vector xs = xs.map rb.assign_labels ∧
    (rb.assign_labels_vector xs).length = xs.length ∧
    (∀ i (h : i < xs.length),
      (rb.assign_labels_vector xs)[i]? =
        some (rb.assign_labels (xs.get ⟨i, h⟩))) ∧
    rb.assign_labels_vector [] = [] := by
  have hmain : rb.assign_labels_vector xs = xs.map rb.assign_labels := by
    unfold RuleBox.assign_labels_vector
    by_cases hc : xs.length ≤ smallBatchCutoff
    · simp [hc]
    · simp only [hc, if_false]
      rw [← List.map_flatten, chunkList_flatten]
  refine ⟨hmain, ?_, ?_, rfl⟩
  · rw [hmain, List.length_map]
  · intro i h
    rw [hmain, List.getElem?_map, List.getElem?_eq_getElem h]
    rfl

/-- C2: a rule fires iff every present clause of its predicate is
satisfied; an absent or empty clause list is vacuously true and does not
affect the decision, and a rule with no clauses at all fires on every
input. -/
theorem rule_fires_iff_present_clauses_sat (r : Rule) (s : String) :
    (ruleFires r s.toList = presentClausesSat r.rule s.toList) ∧
    (ruleFires ⟨r.label, ⟨some [], r.rule.and_patterns, r.rule.not_patterns⟩⟩
        s.toList =
      ruleFires ⟨r.label, ⟨none, r.rule.and_patterns, r.rule.not_patterns⟩⟩
        s.toList) ∧
    (ruleFires ⟨r.label, ⟨r.rule.or_patterns, some [], r.rule.not_patterns⟩⟩
        s.toList =
      ruleFires ⟨r.label, ⟨r.rule.or_patterns, none, r.rule.not_patterns⟩⟩
        s.toList) ∧
    (ruleFires ⟨r.label, ⟨r.rule.or_patterns, r.rule.and_patterns, some []⟩⟩
        s.toList =
      ruleFires ⟨r.label, ⟨r.rule.or_patterns, r.rule.and_patterns, none⟩⟩
        s.toList) ∧
    (r.rule.or_patterns = none ∨ r.rule.or_patterns = some [] →
     r.rule.and_patterns = none ∨ r.rule.and_patterns = some [] →
     r.rule.not_patterns = none ∨ r.rule.not_patterns = some [] →
     ruleFires r s.toList = true) := by
  refine ⟨ruleFires_eq_presentClausesSat r s.toList, ?_, ?_, ?_, ?_⟩
  · simp [ruleFires, andSat, notSat, orSat]
  · simp [ruleFires, andSat, notSat, orSat]
  · simp [ruleFires, andSat, notSat, orSat]
  · rintro (ho | ho) (ha | ha) (hn | hn) <;>
      simp [ruleFires, andSat, notSat, orSat, ho, ha, hn]

/-- C3: with patterns P and Q, a rule whose only clause is
`and_patterns=[P,Q]` fires iff both match, `or_patterns=[P,Q]` iff at least
one matches, `not_patterns=[P,Q]` iff neither matches, where a match is an
unanchored search: the pattern accepts some contiguous segment anywhere in
the input. -/
theorem clause_truth_tables (P Q : CompiledPattern) (s : String) :
    (ruleFires ⟨"a", ⟨none, some [P, Q], none⟩⟩ s.toList =
      (isMatch P s.toList && isMatch Q s.toList)) ∧
    (ruleFires ⟨"o", ⟨some [P, Q], none, none⟩⟩ s.toList =
      (isMatch P s.toList || isMatch Q s.toList)) ∧
    (ruleFires ⟨"n", ⟨none, none, some [P, Q]⟩⟩ s.toList =
      (!isMatch P s.toList && !isMatch Q s.toList)) ∧
    (isMatch P s.toList = true ↔
      ∃ u v w, s.toList = u ++ v ++ w ∧ rmatch P.ci P.re v = true) := by
  refine ⟨?_, ?_, ?_, searchFrom_iff P.ci P.re s.toList⟩
  · simp [ruleFires, andSat, notSat, orSat]
  · simp [ruleFires, andSat, notSat, orSat]
  · simp [ruleFires, andSat, notSat, orSat]

set_option maxRecDepth 40000 in
/-- C4: the labels returned by `assign_labels` are exactly the labels of
the firing rules in catalog declaration order, one entry per firing rule;
on the two-rule catalog with "urgent" declared before "polite" and the
literal input of spec scenario 3 the output is exactly
["urgent", "polite"]. -/
theorem labels_follow_declaration_order :
    (∀ (rb : RuleBox) (s : String),
      rb.assign_labels s =
        (rb.rules.filter (fun r => ruleFires r s.toList)).map Rule.label) ∧
    (RuleBox.from_json urgentPoliteDoc).map
      (fun rb =>
        rb.assign_labels "Please make this urgent change immediately, thanks!") =
      .ok ["urgent", "polite"] := by
  refine ⟨?_, rfl⟩
  intro rb s
  exact assignLabelsAux_eq_filter_map s.toList rb.rules

/-- C5: construction is fail-fast and atomic — malformed JSON, an
unreadable path, an unknown flag or an invalid regex such as "[" each
abort construction with a single structured error (the first one
encountered), no partial catalog being returned, and evaluation after a
successful construction is total. -/
theorem construction_fail_fast_atomic :
    (∀ t m, parseJson t = .error m →
      RuleBox.from_json t = .error (.jsonSyntaxError m)) ∧
    (∀ (fs : String → Option String) p, fs p = none →
      ∃ m, RuleBox.from_path fs p = .error (.ioFailure m)) ∧
    RuleBox.from_json badRegexDoc =
      .error (.regexSyntaxError "[" 0 "or_patterns" 0
        "unclosed character class") ∧
    RuleBox.from_json failFastDoc = .error (.unknownFlag "z") ∧
    (∀ t rb, RuleBox.from_json t = .ok rb →
      ∀ s : String, ∃ out, rb.assign_labels s = out) := by
  refine ⟨?_, ?_, rfl, rfl, ?_⟩
  · intro t m h
    unfold RuleBox.from_json
    rw [h]
  · intro fs p h
    refine ⟨"Failed to load RuleBox: could not read " ++ p, ?_⟩
    unfold RuleBox.from_path
    rw [h]
  · intro t rb _ s
    exact ⟨rb.assign_labels s, rfl⟩

/-- C6: when `from_path` reads a file whose contents are the document d,
its result is the same as `from_json` on d; in particular two catalogs
built the two ways from the same document are behaviorally equal under
`assign_labels`. -/
theorem from_path_behaves_as_from_json (fs : String → Option String)
    (path d : String) (h : fs path = some d) :
    RuleBox.from_path fs path = RuleBox.from_json d ∧
    (∀ rb1 rb2, RuleBox.from_path fs path = .ok rb1 →
      RuleBox.from_json d = .ok rb2 →
      ∀ s, rb1.assign_labels s = rb2.assign_labels s) := by
  have h1 : RuleBox.from_path fs path = RuleBox.from_json d := by
    unfold RuleBox.from_path
    rw [h]
  refine ⟨h1, ?_⟩
  intro rb1 rb2 e1 e2 s
  rw [h1] at e1
  rw [e1] at e2
  injection e2 with e
  rw [e]

/-- C7: on the empty string the output is the labels of exactly those
rules whose every present clause is vacuous or satisfied on the empty
string; a catalog whose every rule needs a non-empty match yields the
empty list, while the one-rule catalog whose only clause is
`or_patterns: ["a*"]` fires on the empty string. -/
theorem empty_input_law (rb : RuleBox) :
    rb.assign_labels "" =
      (rb.rules.filter (fun r => presentClausesSat r.rule [])).map Rule.label ∧
    ((∀ r ∈ rb.rules, presentClausesSat r.rule [] = false) →
      rb.assign_labels "" = []) ∧
    (RuleBox.from_json aStarDoc).map (fun rb2 => rb2.assign_labels "") =
      .ok ["e"] := by
  have h1 : rb.assign_labels "" =
      (rb.rules.filter (fun r => presentClausesSat r.rule [])).map Rule.label := by
    have h0 : rb.assign_labels "" =
        (rb.rules.filter (fun r => ruleFires r [])).map Rule.label :=
      assignLabelsAux_eq_filter_map [] rb.rules
    rw [h0]
    simp only [ruleFires_eq_presentClausesSat]
  refine ⟨h1, ?_, rfl⟩
  intro hall
  rw [h1]
  have : rb.rules.filter (fun r => presentClausesSat r.rule []) = [] := by
    simp only [List.filter_eq_nil_iff]
    intro r hr
    simp [hall r hr]
  rw [this]
  rfl

/-- C8: the catalog built from the empty JSON array is empty, and
evaluating any input against it returns the empty label list. -/
theorem empty_catalog_law :
    RuleBox.from_json "[]" = .ok ⟨[]⟩ ∧
    ∀ s : String, RuleBox.assign_labels ⟨[]⟩ s = [] :=
  ⟨rfl, fun _ => rfl⟩

/-- C9: a string that does not parse as JSON makes `from_json` fail with a
JsonSyntax error carrying the parser's textual diagnostic; on the literal
input "invalid json content" the diagnostic contains "expected value". -/
theorem json_errors_surfaced :
    (∀ t m, parseJson t = .error m →
      RuleBox.from_json t = .error (.jsonSyntaxError m)) ∧
    (∃ m, RuleBox.from_json "invalid json content" =
        .error (.jsonSyntaxError m) ∧
      containsSub "expected value".toList m.toList = true) := by
  refine ⟨?_, "expected value", rfl, rfl⟩
  intro t m h
  unfold RuleBox.from_json
  rw [h]

/-- C10: the Python-facing `from_path` treats a plain string and a
Path-like object with the same filesystem path identically, and any other
argument raises the TypeError "path must be a string or Path-like object"
without consulting the filesystem. -/
theorem from_path_argument_coercion :
    (∀ (fs : String → Option String) (p : String),
      from_path_py fs (.pyStr p) = from_path_py fs (.pyPath p)) ∧
    (∀ (fs : String → Option String) (n : Int),
      from_path_py fs (.pyInt n) =
        .error (.typeError "path must be a string or Path-like object")) ∧
    (∀ (fs : String → Option String),
      from_path_py fs .pyNone =
        .error (.typeError "path must be a string or Path-like object")) ∧
    (∀ (fs fs' : String → Option String) (n : Int),
      from_path_py fs (.pyInt n) = from_path_py fs' (.pyInt n)) ∧
    (∀ (fs fs' : String → Option String),
      from_path_py fs .pyNone = from_path_py fs' .pyNone) :=
  ⟨fun _ _ => rfl, fun _ _ => rfl, fun _ => rfl, fun _ _ _ => rfl,
    fun _ _ => rfl⟩

theorem assign_labels_vector_is_sequential_map_witness :
    (rbA.assign_labels_vector ["a", "b"])[0]? =
      some (rbA.assign_labels "a") :=
  (assign_labels_vector_is_sequential_map rbA ["a", "b"]).2.2.1 0 (by decide)

theorem rule_fires_iff_present_clauses_sat_witness :
    ruleFires ⟨"always", ⟨none, none, none⟩⟩ "x".toList = true :=
  (rule_fires_iff_present_clauses_sat ⟨"always", ⟨none, none, none⟩⟩
    "x").2.2.2.2 (Or.inl rfl) (Or.inl rfl) (Or.inl rfl)

theorem clause_truth_tables_witness :
    ruleFires ⟨"a", ⟨none, some [cpA, cpB], none⟩⟩ "ab".toList =
      (isMatch cpA "ab".toList && isMatch cpB "ab".toList) :=
  (clause_truth_tables cpA cpB "ab").1

theorem construction_fail_fast_atomic_witness :
    RuleBox.from_json "not json" = .error (.jsonSyntaxError "expected value") :=
  construction_fail_fast_atomic.1 "not json" "expected value" rfl

theorem from_path_behaves_as_from_json_witness :
    RuleBox.from_path fsEx "rules.json" = RuleBox.from_json "[]" :=
  (from_path_behaves_as_from_json fsEx "rules.json" "[]" rfl).1

theorem empty_input_law_witness : RuleBox.assign_labels rbA "" = [] :=
  (empty_input_law rbA).2.1 (by decide)

theorem json_errors_surfaced_witness :
    RuleBox.from_json "invalid json content" =
      .error (.jsonSyntaxError "expected value") :=
  json_errors_surfaced.1 "invalid json content" "expected value" rfl

end Rulebox
